import Mathlib

/-!
Verification development for the Xbox game-store discovery extension.

The development shallowly embeds the two discovery pipelines of the
repository:

* the registry pipeline of `src/index.ts` (class `XboxLauncher`):
  `getKeyNames`, `getFirstKeyName`, `resolveMutableLocation`, `resolveRef`,
  the per-key body of `getGameEntries`, and the `allGames` / `reloadGames`
  caching behaviour;
* the volume-marker pipeline (`findXboxGamingRootPath`, `findInstalledGames`)
  of the gamingRoot discovery file.

The Windows registry is modelled as a partial map from (hive, key path) to a
key record carrying the sub-key names in enumeration order and the values
with their type tags; `winapi.RegGetValue` failing (absent key or value) is
represented by `Option`/`Except`, and JavaScript exceptions are represented
by `Except.error` that propagates exactly as far as the corresponding
`try`/`catch` in the source lets it.
-/

namespace XboxStore

/-- Model of JavaScript `s.startsWith(pre)`. -/
def jsStartsWith (s pre : String) : Bool :=
  pre.data.isPrefixOf s.data

/-- Model of JavaScript `s.toLowerCase()` for the ASCII key names this
extension compares. -/
def jsToLower (s : String) : String :=
  String.mk (s.data.map Char.toLower)

/-- Split a character list on a separator character; the JavaScript
`String.prototype.split` semantics with a one-character separator (the
empty string yields one empty group). -/
def splitChars (sep : Char) : List Char → List (List Char)
  | [] => [[]]
  | c :: rest =>
    let groups := splitChars sep rest
    if c = sep then [] :: groups
    else
      match groups with
      | [] => [[c]]
      | g :: gs => (c :: g) :: gs

/-- Model of JavaScript `s.split(sep)` for a one-character separator. -/
def jsSplit (s : String) (sep : Char) : List String :=
  (splitChars sep s.data).map String.mk

/-- Model of `arr[arr.length - 1]` on a non-empty split result (the empty
string for an empty list, which never arises from a split). -/
def lastSegment : List String → String
  | [] => ""
  | [s] => s
  | _ :: rest => lastSegment rest

/-- A registry value as enumerated by `winapi.RegEnumValues`: its name, its
type tag (for example "REG_SZ") and its data, which for the values this
extension reads is a string. -/
structure RegValue where
  name : String
  type : String
  value : String
deriving DecidableEq, Repr

/-- A registry key: its child key names in enumeration order
(`winapi.RegEnumKeys`) and its values (`winapi.RegEnumValues`). -/
structure RegKey where
  subkeys : List String
  values : List RegValue
deriving DecidableEq, Repr

/-- The registry: a partial map from hive name and key path to the key
record; `none` means opening the key fails (ENOENT). -/
structure Registry where
  keys : String → String → Option RegKey

/-- Model of `winapi.RegGetValue(hive, path, name).value`: `none` when the
key cannot be opened or the value is absent, which in the source raises an
exception. -/
def regGetValue (reg : Registry) (hive keyPath valueName : String) : Option String :=
  match reg.keys hive keyPath with
  | none => none
  | some k =>
    match k.values.find? (fun v => v.name = valueName) with
    | none => none
    | some v => some v.value

/-- From `src/index.ts`: store id constant. -/
def STORE_ID : String := "xbox"

/-- From `src/index.ts`: the package repository root path. -/
def REPOSITORY_PATH : String :=
  "Local Settings\\Software\\Microsoft\\Windows\\CurrentVersion\\AppModel\\Repository\\Packages"

/-- From `src/index.ts`: the secondary repository used for the execution
name. -/
def REPOSITORY_PATH2 : String :=
  "Local Settings\\Software\\Microsoft\\Windows\\CurrentVersion\\AppModel\\PackageRepository\\Packages"

/-- From `src/index.ts`: the mutable-location state cache root. -/
def MUTABLE_LOCATION_PATH : String :=
  "SOFTWARE\\Microsoft\\Windows\\CurrentVersion\\AppModel\\StateRepository\\Cache\\Package\\Data"

/-- From `src/index.ts`: the ignore list used to filter non-game packages. -/
def IGNORABLE : List String := [
  "microsoft.accounts", "microsoft.aad", "microsoft.advertising", "microsoft.bing", "microsoft.desktop",
  "microsoft.directx", "microsoft.gethelp", "microsoft.getstarted", "microsoft.hefi", "microsoft.lockapp",
  "microsoft.microsoft", "microsoft.net", "microsoft.office", "microsoft.oneconnect", "microsoft.services",
  "microsoft.ui", "microsoft.vclibs", "microsoft.windows", "microsoft.xbox", "microsoft.zune", "nvidiacorp",
  "realtek", "samsung", "synapticsincorporated", "windows"]

/-- The resource cache path for a package: `RESOURCES_PATH` with the
PACKAGE_ID placeholder already substituted, as computed by
`RESOURCES_PATH.replace` in `resolveRef`. -/
def resourcesCachePath (packageId : String) : String :=
  "Local Settings\\MrtCache\\C:%5CProgram Files%5CWindowsApps%5C" ++ packageId ++ "%5Cresources.pri"

/-- Win32 path.join for the plain key names this extension joins:
concatenation with a backslash separator. -/
def winJoin (a b : String) : String := a ++ "\\" ++ b

/-- Model of `XboxLauncher.getKeyNames` without a filter list: open the key
and enumerate its child names; if opening fails the exception is caught and
the empty list is returned. -/
def getKeyNames (reg : Registry) (hive keyPath : String) : List String :=
  match reg.keys hive keyPath with
  | none => []
  | some k => k.subkeys

/-- Model of `XboxLauncher.getFirstKeyName`: the head of `getKeyNames`, or
`none` (undefined) when there are no child keys. -/
def getFirstKeyName (reg : Registry) (hive keyPath : String) : Option String :=
  (getKeyNames reg hive keyPath).head?

/-- Does a state-cache child key expose both of the string-typed values
`MutableLink` and `MutableLocation`? This is the candidate test in
`resolveMutableLocation` (`values.includes(...)` over the REG_SZ values). -/
def hasMutablePair (k : RegKey) : Bool :=
  let values := (k.values.filter (fun v => v.type = "REG_SZ")).map (fun v => v.name)
  values.contains "MutableLink" && values.contains "MutableLocation"

/-- The loop body of `resolveMutableLocation` over the state-cache child
keys. `Except.error` represents an exception escaping the loop (a child key
that fails to open, or a value fetch that fails), which the outer `catch`
turns into `undefined`. -/
def mutableLoop (reg : Registry) (packagePath : String) : List String → Except String (Option String)
  | [] => .ok none
  | key :: rest =>
    match reg.keys "HKEY_LOCAL_MACHINE" (winJoin MUTABLE_LOCATION_PATH key) with
    | none => .error (winJoin MUTABLE_LOCATION_PATH key)
    | some hk =>
      if hasMutablePair hk then
        match regGetValue reg "HKEY_LOCAL_MACHINE" (winJoin MUTABLE_LOCATION_PATH key) "MutableLink" with
        | none => .error (winJoin MUTABLE_LOCATION_PATH key)
        | some link =>
          if link = packagePath then
            match regGetValue reg "HKEY_LOCAL_MACHINE" (winJoin MUTABLE_LOCATION_PATH key) "MutableLocation" with
            | none => .error (winJoin MUTABLE_LOCATION_PATH key)
            | some loc => .ok (some loc)
          else mutableLoop reg packagePath rest
      else mutableLoop reg packagePath rest

/-- Model of `XboxLauncher.resolveMutableLocation`: enumerate the
state-cache children and return the `MutableLocation` of the first child
whose `MutableLink` equals the probe package path; any exception inside the
`try` yields `undefined`. -/
def resolveMutableLocation (reg : Registry) (packagePath : String) : Option String :=
  match reg.keys "HKEY_LOCAL_MACHINE" MUTABLE_LOCATION_PATH with
  | none => none
  | some rootKey =>
    match mutableLoop reg packagePath rootKey.subkeys with
    | .ok r => r
    | .error _ => none

/-- The per-hive step of `resolveRef`: open the hive, enumerate its value
names, and if the raw display-name reference appears among them fetch its
data; a hive that fails to open is swallowed by the per-hive `catch`,
leaving the accumulator unchanged. -/
def hiveStep (reg : Registry) (hivesPath displayName : String) (acc : Option String) (hive : String) : Option String :=
  match reg.keys "HKEY_CLASSES_ROOT" (winJoin hivesPath hive) with
  | none => acc
  | some hk =>
    match hk.values.find? (fun v => v.name = displayName) with
    | none => acc
    | some v => some v.value

/-- Model of `XboxLauncher.resolveRef`: multi-hop indirect display-name
resolution through the MrtCache. The hives are visited with `forEach`, so
every hive is visited and a later match overwrites an earlier one. -/
def resolveRef (reg : Registry) (packageId displayName : String) : Option String :=
  match getFirstKeyName reg "HKEY_CLASSES_ROOT" (resourcesCachePath packageId) with
  | none => none
  | some firstKey =>
    if (getKeyNames reg "HKEY_CLASSES_ROOT" (winJoin (resourcesCachePath packageId) firstKey)).isEmpty
    then none
    else (getKeyNames reg "HKEY_CLASSES_ROOT" (winJoin (resourcesCachePath packageId) firstKey)).foldl
      (hiveStep reg (winJoin (resourcesCachePath packageId) firstKey) displayName) none

/-- A resolved game entry as assembled in `getGameEntries` (`gameEntry`
object literal). The `name` field may be undefined when indirect resolution
fails, represented by `Option`. -/
structure XboxEntry where
  appid : String
  publisherId : String
  executionName : String
  gamePath : String
  name : Option String
  gameStoreId : String
deriving DecidableEq, Repr

/-- Model of `key.substring(0, key.indexOf('_'))`: the part before the
first underscore; when the key has no underscore, `indexOf` returns -1 and
JavaScript `substring(0, -1)` yields the empty string. -/
def appidOf (key : String) : String :=
  match jsSplit key '_' with
  | [] => ""
  | [_] => ""
  | first :: _ => first

/-- Model of `key.substr(key.lastIndexOf('_') + 1)`: the part after the
last underscore; the whole key when it has no underscore. -/
def publisherIdOf (key : String) : String :=
  lastSegment (jsSplit key '_')

/-- The execution-name derivation of `getGameEntries`: the first child key
under `REPOSITORY_PATH2` scoped to the package, split on the exclamation
mark; the last segment when the split produced more than one segment, the
literal "App" otherwise (including when no child key was found). -/
def executionNameOf (reg : Registry) (key : String) : String :=
  match getFirstKeyName reg "HKEY_CLASSES_ROOT" (winJoin REPOSITORY_PATH2 key) with
  | some firstKeyName =>
    let segments := jsSplit firstKeyName '!'
    if segments.length > 1 then lastSegment segments else "App"
  | none => "App"

/-- The ignore-list filter of `getGameEntries`: a key survives when no
ignore-list entry is a prefix of its lowercase form. -/
def notIgnorable (key : String) : Bool :=
  (IGNORABLE.find? (fun ign => jsStartsWith (jsToLower key) ign)).isNone

/-- The per-candidate body of `getGameEntries` (the `keys.map` callback).
`Except.error` represents an exception escaping the callback: the
`PackageRootFolder` fetch sits outside every `try` inside the callback, so
its failure propagates; the `DisplayName` fetch is wrapped in its own
`try`/`catch` that drops the candidate (`Except.ok none`). -/
def processKey (reg : Registry) (key : String) : Except String (Option XboxEntry) :=
  let packageId := key
  let executionName := executionNameOf reg key
  let publisherId := publisherIdOf key
  let appid := appidOf key
  match regGetValue reg "HKEY_CLASSES_ROOT" (REPOSITORY_PATH ++ "\\" ++ key) "DisplayName" with
  | none => .ok none
  | some displayName =>
    let name := if jsStartsWith displayName "@" then resolveRef reg packageId displayName
                else some displayName
    match regGetValue reg "HKEY_CLASSES_ROOT" (REPOSITORY_PATH ++ "\\" ++ key) "PackageRootFolder" with
    | none => .error key
    | some gamePath =>
      let mutableLocation := resolveMutableLocation reg gamePath
      .ok (some {
        appid := appid,
        publisherId := publisherId,
        executionName := executionName,
        gamePath := mutableLocation.getD gamePath,
        name := name,
        gameStoreId := STORE_ID })

/-- Model of `XboxLauncher.getGameEntries`: open the repository root,
filter the ignorable keys, map each remaining key through `processKey`, and
keep the defined entries. An exception escaping the mapping (or the root
failing to open) is caught only by the outermost `try`, which rejects the
whole batch (`Except.error`). -/
def getGameEntries (reg : Registry) (isXboxInstalled : Bool) : Except String (List XboxEntry) :=
  if isXboxInstalled = false then .ok []
  else
    match reg.keys "HKEY_CLASSES_ROOT" REPOSITORY_PATH with
    | none => .error REPOSITORY_PATH
    | some root =>
      let keys := root.subkeys.filter notIgnorable
      match keys.mapM (processKey reg) with
      | .error e => .error e
      | .ok entries => .ok (entries.filterMap id)

/-- The memoizing provider state of `XboxLauncher`: the install-detection
flag, the memoized cache (`mCache`), and a count of store queries issued so
far (used to model "a fresh query is issued"). -/
structure StoreState where
  isXboxInstalled : Bool
  mCache : Option (List XboxEntry)
  queryCount : Nat
deriving DecidableEq, Repr

/-- Model of `XboxLauncher.allGames`. `query n` is the result of the n-th
store query (`getGameEntries()` call). Not installed short-circuits to an
empty list; otherwise the memoized cache is returned, populating it with a
fresh query when absent. -/
def allGames (query : Nat → List XboxEntry) (s : StoreState) : List XboxEntry × StoreState :=
  if s.isXboxInstalled = false then ([], s)
  else
    match s.mCache with
    | some cached => (cached, s)
    | none =>
      let result := query s.queryCount
      (result, { s with mCache := some result, queryCount := s.queryCount + 1 })

/-- Model of `XboxLauncher.reloadGames`: when installed, overwrite the
cache with a fresh store query. -/
def reloadGames (query : Nat → List XboxEntry) (s : StoreState) : StoreState :=
  if s.isXboxInstalled = false then s
  else { s with mCache := some (query s.queryCount), queryCount := s.queryCount + 1 }

end XboxStore

namespace GamingRoot

/-- The result of `fs.statAsync` when it succeeds. -/
structure FileStat where
  isFile : Bool
deriving DecidableEq, Repr

/-- The filesystem as seen by `findXboxGamingRootPath`: `stat` is `none`
when `fs.statAsync` rejects (file absent, volume not ready), `read` is
`none` when `fs.readFileAsync` rejects; file content is the byte list. -/
structure FS where
  stat : String → Option FileStat
  read : String → Option (List Nat)

/-- The failure modes of the body of `findXboxGamingRootPath`: the two
thrown corruption errors carry the offending file path, as in the source;
stat and read rejections are the expected-absence failures. -/
inductive MarkerErr where
  | statError
  | readError
  | oddLength (path : String)
  | tooShort (path : String)
deriving DecidableEq, Repr

/-- The byte-pair loop of `findXboxGamingRootPath`: combine consecutive
bytes little-endian (first byte is the low byte, second is shifted into the
high byte). -/
def decodeUnits : List Nat → List Nat
  | b0 :: b1 :: rest => (b0 ||| (b1 <<< 8)) :: decodeUnits rest
  | _ => []

/-- Model of `String.fromCharCode.apply(null, units)`: each 16-bit unit
becomes one character. -/
def unitsToString (units : List Nat) : String :=
  String.mk (units.map Char.ofNat)

/-- The body of `findXboxGamingRootPath` up to (but excluding) its
`catch`: every `throw` and every rejected filesystem promise is an
`Except.error`. -/
def findXboxGamingRootPathBody (fsys : FS) (driveRootPath : String) : Except MarkerErr (Option String) :=
  let gamingRootFilePath := driveRootPath ++ ".GamingRoot"
  match fsys.stat gamingRootFilePath with
  | none => .error .statError
  | some fileStats =>
    if fileStats.isFile = false then .ok none
    else
      match fsys.read gamingRootFilePath with
      | none => .error .readError
      | some fileContent =>
        if fileContent.length % 2 ≠ 0 then .error (.oddLength gamingRootFilePath)
        else
          let content := decodeUnits fileContent
          if content.length < 4 + 1 then .error (.tooShort gamingRootFilePath)
          else
            let relativePath := unitsToString ((content.drop 4).dropLast)
            .ok (some (driveRootPath ++ relativePath))

/-- Model of `findXboxGamingRootPath`: the body wrapped in the function owned
`catch`, which maps every error (including the internally thrown corruption
errors) to the null "no marker" result. -/
def findXboxGamingRootPath (fsys : FS) (driveRootPath : String) : Option String :=
  match findXboxGamingRootPathBody fsys driveRootPath with
  | .ok r => r
  | .error _ => none

/-- The environment of `findInstalledGames`: the gaming-root paths already
discovered, the manifest paths found by the walker under each root, the per
game-path result of `getAppManifestData` (the extracted
`Package.Identity[0].$.Name`, `none` when parsing fails or a field is
missing), and the external `path.dirname` utility. -/
structure ManifestEnv where
  gamingRootPaths : List String
  manifests : String → List String
  manifestAppId : String → Option String
  dirname : String → String

/-- JavaScript object assignment `gamePathMap[appId] = gamePath` on an
association list: overwrite the existing binding in place (since a
JavaScript object holds one slot per property, the first binding is the
only one), else append at the end in insertion order. -/
def setKey : List (String × String) → String → String → List (String × String)
  | [], k, v => [(k, v)]
  | p :: rest, k, v => if p.1 = k then (k, v) :: rest else p :: setKey rest k v

/-- The optional map write a single manifest produces: the directory of the
manifest keyed by the extracted identity, or nothing when the identity is
absent or falsy (the empty string is falsy in `if (appId)`). -/
def manifestWrite (env : ManifestEnv) (manifest : String) : Option (String × String) :=
  let gamePath := env.dirname manifest
  match env.manifestAppId gamePath with
  | none => none
  | some appId => if appId.isEmpty then none else some (appId, gamePath)

/-- The per-manifest step of `findInstalledGames`: perform the write the
manifest produces, if any. -/
def processManifest (env : ManifestEnv) (m : List (String × String)) (manifest : String) : List (String × String) :=
  match manifestWrite env manifest with
  | none => m
  | some w => setKey m w.1 w.2

/-- Model of `findInstalledGames`: fold over the gaming roots in
enumeration order, and over the manifests of each root, building the
identity-to-path map by object assignment. -/
def findInstalledGames (env : ManifestEnv) : List (String × String) :=
  env.gamingRootPaths.foldl
    (fun m root => (env.manifests root).foldl (processManifest env) m) []

/-- All map writes `findInstalledGames` performs, flattened in enumeration
order: volumes first, manifests within a volume second. -/
def volumeWrites (env : ManifestEnv) : List (String × String) :=
  (env.gamingRootPaths.map
    (fun root => (env.manifests root).filterMap (manifestWrite env))).flatten

/-- Replay a list of writes onto a map by object assignment. -/
def applyWrites (m : List (String × String)) (ws : List (String × String)) : List (String × String) :=
  ws.foldl (fun m w => setKey m w.1 w.2) m

end GamingRoot

namespace XboxStore

/-- Concrete registry for C1: two candidate package keys; the second has a
DisplayName but no PackageRootFolder value, so its fetch throws. -/
def c1reg : Registry := {
  keys := fun hive p =>
    if hive = "HKEY_CLASSES_ROOT" then
      if p = REPOSITORY_PATH then
        some { subkeys := ["GoodGame_1.0_x64_pub", "BadGame_1.0_x64_pub"], values := [] }
      else if p = REPOSITORY_PATH ++ "\\" ++ "GoodGame_1.0_x64_pub" then
        some { subkeys := [], values := [
          { name := "DisplayName", type := "REG_SZ", value := "Good Game" },
          { name := "PackageRootFolder", type := "REG_SZ", value := "C:\\Games\\Good" }] }
      else if p = REPOSITORY_PATH ++ "\\" ++ "BadGame_1.0_x64_pub" then
        some { subkeys := [], values := [
          { name := "DisplayName", type := "REG_SZ", value := "Bad Game" }] }
      else none
    else none }

/-- The entry the first (healthy) candidate of `c1reg` resolves to. -/
def c1goodEntry : XboxEntry := {
  appid := "GoodGame"
  publisherId := "pub"
  executionName := "App"
  gamePath := "C:\\Games\\Good"
  name := some "Good Game"
  gameStoreId := "xbox" }

/-- Concrete registry for C3: the resource cache for package "P" has first
key "K" whose hives "H1" and "H2" both carry a value named with the
reference string, with different data. -/
def c3reg : Registry := {
  keys := fun hive p =>
    if hive = "HKEY_CLASSES_ROOT" then
      if p = resourcesCachePath "P" then
        some { subkeys := ["K"], values := [] }
      else if p = winJoin (resourcesCachePath "P") "K" then
        some { subkeys := ["H1", "H2"], values := [] }
      else if p = winJoin (winJoin (resourcesCachePath "P") "K") "H1" then
        some { subkeys := [], values := [{ name := "@ref", type := "REG_SZ", value := "Name1" }] }
      else if p = winJoin (winJoin (resourcesCachePath "P") "K") "H2" then
        some { subkeys := [], values := [{ name := "@ref", type := "REG_SZ", value := "Name2" }] }
      else none
    else none }

/-- Concrete registry for C4: the secondary repository for key "G_1_p" has
the single child key "MyGame", which contains no exclamation mark. -/
def c4reg : Registry := {
  keys := fun hive p =>
    if hive = "HKEY_CLASSES_ROOT" then
      if p = winJoin REPOSITORY_PATH2 "G_1_p" then
        some { subkeys := ["MyGame"], values := [] }
      else none
    else none }

/-- Concrete registry for the first part of C5: one state-cache child, and
it does not carry the MutableLink / MutableLocation pair. -/
def c5regA : Registry := {
  keys := fun hive p =>
    if hive = "HKEY_LOCAL_MACHINE" then
      if p = MUTABLE_LOCATION_PATH then
        some { subkeys := ["C1"], values := [] }
      else if p = winJoin MUTABLE_LOCATION_PATH "C1" then
        some { subkeys := [], values := [{ name := "Other", type := "REG_SZ", value := "x" }] }
      else none
    else none }

/-- Concrete registry for the second part of C5: the first state-cache
child lacks the pair, the second carries it with a link equal to the probe
path. -/
def c5regB : Registry := {
  keys := fun hive p =>
    if hive = "HKEY_LOCAL_MACHINE" then
      if p = MUTABLE_LOCATION_PATH then
        some { subkeys := ["C1", "C2"], values := [] }
      else if p = winJoin MUTABLE_LOCATION_PATH "C1" then
        some { subkeys := [], values := [{ name := "Other", type := "REG_SZ", value := "x" }] }
      else if p = winJoin MUTABLE_LOCATION_PATH "C2" then
        some { subkeys := [], values := [
          { name := "MutableLink", type := "REG_SZ", value := "PKGPATH" },
          { name := "MutableLocation", type := "REG_SZ", value := "LOCPATH" }] }
      else none
    else none }

/-- Concrete registry for C10: one candidate whose DisplayName is an
indirect reference that resolves to nothing (the resource cache path is
absent), while its PackageRootFolder is present. -/
def c10reg : Registry := {
  keys := fun hive p =>
    if hive = "HKEY_CLASSES_ROOT" then
      if p = REPOSITORY_PATH then
        some { subkeys := ["RefGame_1.0_x64_pub"], values := [] }
      else if p = REPOSITORY_PATH ++ "\\" ++ "RefGame_1.0_x64_pub" then
        some { subkeys := [], values := [
          { name := "DisplayName", type := "REG_SZ", value := "@appDisplayNameRef" },
          { name := "PackageRootFolder", type := "REG_SZ", value := "C:\\Games\\Ref" }] }
      else none
    else none }

end XboxStore

namespace GamingRoot

/-- Concrete filesystem for C7: a marker file with the documented header,
the single character A, and the null terminator. -/
def c7fs : FS := {
  stat := fun p => if p = "D:\\.GamingRoot" then some { isFile := true } else none
  read := fun p =>
    if p = "D:\\.GamingRoot" then
      some [0x52, 0x47, 0x42, 0x58, 0x01, 0x00, 0x00, 0x00, 0x41, 0x00, 0x00, 0x00]
    else none }

/-- Concrete filesystem for C2: a marker file with a single byte, an odd
length. -/
def c2fs : FS := {
  stat := fun p => if p = "D:\\.GamingRoot" then some { isFile := true } else none
  read := fun p => if p = "D:\\.GamingRoot" then some [0x52] else none }

/-- Concrete filesystem for C9, odd-length case: a three-byte marker. -/
def c9fsOdd : FS := {
  stat := fun p => if p = "E:\\.GamingRoot" then some { isFile := true } else none
  read := fun p => if p = "E:\\.GamingRoot" then some [0x52, 0x47, 0x42] else none }

/-- Concrete filesystem for C9, absent-file case: every stat rejects. -/
def c9fsAbsent : FS := {
  stat := fun _ => none
  read := fun _ => none }

/-- JavaScript object property read `m[k]` on the association-list model:
the value of the binding for `k`, if any. -/
def getKey : List (String × String) → String → Option String
  | [], _ => none
  | p :: rest, k => if p.1 = k then some p.2 else getKey rest k

/-- Concrete filesystem for the C2 witness: an odd three-byte marker on a
different volume. -/
def c2fsB : FS := {
  stat := fun p => if p = "F:\\.GamingRoot" then some { isFile := true } else none
  read := fun p => if p = "F:\\.GamingRoot" then some [0x01, 0x02, 0x03] else none }

/-- Concrete environment for C6: two volumes, each carrying one manifest
for the same identity "G" in different directories. -/
def c6env : ManifestEnv := {
  gamingRootPaths := ["R1", "R2"]
  manifests := fun r =>
    if r = "R1" then ["R1\\G\\appxmanifest.xml"]
    else if r = "R2" then ["R2\\G\\appxmanifest.xml"]
    else []
  manifestAppId := fun p =>
    if p = "R1\\G" then some "G"
    else if p = "R2\\G" then some "G"
    else none
  dirname := fun m =>
    if m = "R1\\G\\appxmanifest.xml" then "R1\\G"
    else if m = "R2\\G\\appxmanifest.xml" then "R2\\G"
    else "" }

end GamingRoot

namespace XboxStore

/-- Concrete query stream for the C8 witness: every store query yields the
empty entry list. -/
def c8query : Nat → List XboxEntry := fun _ => []

/-- Concrete provider state for the C8 witness: installed, cache not yet
populated, no query issued yet. -/
def c8state : StoreState := { isXboxInstalled := true, mCache := none, queryCount := 0 }

end XboxStore

namespace GamingRoot

/-- C7: on marker bytes 52 47 42 58 01 00 00 00 41 00 00 00 at volume root
D:\ the Marker Decoder returns D:\A — the first four little-endian 16-bit
units are skipped as the header, the final unit is dropped as the
terminator, and the remaining unit A is appended to the volume root. -/
theorem c7_marker_decode_concrete :
    findXboxGamingRootPath c7fs "D:\\" = some "D:\\A" := by decide

/-- C2 counterexample: on a one-byte (odd-length) marker file the decode
step does raise the odd-length corruption error, but
`findXboxGamingRootPath` nevertheless returns the null "no marker" result
to its caller, contradicting the claim that an odd-length marker is never
reported as a null result. -/
theorem c2_odd_marker_counterexample :
    findXboxGamingRootPathBody c2fs "D:\\" = .error (.oddLength "D:\\.GamingRoot")
    ∧ findXboxGamingRootPath c2fs "D:\\" = none :=
  ⟨rfl, by decide⟩

/-- C2 (amended): for every marker file whose byte length is odd, the
decode step raises a decode error distinct from the no-marker outcome and
carrying the offending path — it never silently truncates — but the
catch of the function itself converts that error into the null return value, so the
immediate caller observes null rather than a propagated error. -/
theorem c2_odd_marker_decode_error (fsys : FS) (drive : String) (st : FileStat) (bs : List Nat)
    (h1 : fsys.stat (drive ++ ".GamingRoot") = some st)
    (h2 : st.isFile = true)
    (h3 : fsys.read (drive ++ ".GamingRoot") = some bs)
    (h4 : bs.length % 2 = 1) :
    findXboxGamingRootPathBody fsys drive = .error (.oddLength (drive ++ ".GamingRoot"))
    ∧ findXboxGamingRootPath fsys drive = none := by
  have hbody : findXboxGamingRootPathBody fsys drive
      = .error (.oddLength (drive ++ ".GamingRoot")) := by
    simp only [findXboxGamingRootPathBody, h1, h2, h3]
    simp [h4]
  exact ⟨hbody, by simp [findXboxGamingRootPath, hbody]⟩

/-- C2 witness: the amended theorem applied to a concrete three-byte
marker file. -/
theorem c2_odd_marker_decode_error_witness :
    findXboxGamingRootPathBody c2fsB "F:\\" = .error (.oddLength "F:\\.GamingRoot")
    ∧ findXboxGamingRootPath c2fsB "F:\\" = none :=
  c2_odd_marker_decode_error c2fsB "F:\\" { isFile := true } [0x01, 0x02, 0x03]
    (by decide) rfl (by decide) (by decide)

/-- C9: `findXboxGamingRootPath` is total at its public interface: an
absent marker file (stat rejects), a non-file, a failing read, an
odd-length content and a too-short decoded content all yield the null
"no marker" return, and more generally every error of the function body —
including the internally raised corruption errors — is caught and mapped to
null. -/
theorem c9_marker_never_throws (fsys : FS) (drive : String) :
    (fsys.stat (drive ++ ".GamingRoot") = none → findXboxGamingRootPath fsys drive = none)
    ∧ (∀ st, fsys.stat (drive ++ ".GamingRoot") = some st → st.isFile = false →
        findXboxGamingRootPath fsys drive = none)
    ∧ (∀ st, fsys.stat (drive ++ ".GamingRoot") = some st → st.isFile = true →
        fsys.read (drive ++ ".GamingRoot") = none → findXboxGamingRootPath fsys drive = none)
    ∧ (∀ st bs, fsys.stat (drive ++ ".GamingRoot") = some st → st.isFile = true →
        fsys.read (drive ++ ".GamingRoot") = some bs → bs.length % 2 ≠ 0 →
        findXboxGamingRootPath fsys drive = none)
    ∧ (∀ st bs, fsys.stat (drive ++ ".GamingRoot") = some st → st.isFile = true →
        fsys.read (drive ++ ".GamingRoot") = some bs → bs.length % 2 = 0 →
        (decodeUnits bs).length < 5 → findXboxGamingRootPath fsys drive = none)
    ∧ (∀ e, findXboxGamingRootPathBody fsys drive = .error e →
        findXboxGamingRootPath fsys drive = none) := by
  refine ⟨?_, ?_, ?_, ?_, ?_, ?_⟩
  · intro h1
    simp [findXboxGamingRootPath, findXboxGamingRootPathBody, h1]
  · intro st h1 h2
    simp [findXboxGamingRootPath, findXboxGamingRootPathBody, h1, h2]
  · intro st h1 h2 h3
    simp [findXboxGamingRootPath, findXboxGamingRootPathBody, h1, h2, h3]
  · intro st bs h1 h2 h3 h4
    simp [findXboxGamingRootPath, findXboxGamingRootPathBody, h1, h2, h3, h4]
  · intro st bs h1 h2 h3 h4 h5
    simp [findXboxGamingRootPath, findXboxGamingRootPathBody, h1, h2, h3, h4, h5]
  · intro e he
    simp [findXboxGamingRootPath, he]

/-- C9 witness: the totality theorem applied to a concrete odd-length
marker and to a volume where stat rejects everywhere. -/
theorem c9_marker_never_throws_witness :
    findXboxGamingRootPath c9fsOdd "E:\\" = none
    ∧ findXboxGamingRootPath c9fsAbsent "D:\\" = none :=
  ⟨(c9_marker_never_throws c9fsOdd "E:\\").2.2.2.1 { isFile := true } [0x52, 0x47, 0x42]
      (by decide) rfl (by decide) (by decide),
   (c9_marker_never_throws c9fsAbsent "D:\\").1 rfl⟩

/-- C6 counterexample: two volumes carry a manifest for the same identity
G; the first volume binds G to R1\G, yet the resulting map holds R2\G, the
path from the later-enumerated volume — later volumes do overwrite an
identity already present. -/
theorem c6_first_volume_counterexample :
    processManifest c6env [] "R1\\G\\appxmanifest.xml" = [("G", "R1\\G")]
    ∧ findInstalledGames c6env = [("G", "R2\\G")]
    ∧ ("R2\\G" : String) ≠ "R1\\G" := by decide

end GamingRoot

namespace XboxStore

/-- C1: a registry in which candidate BadGame_1.0_x64_pub has a DisplayName
but no PackageRootFolder value. The healthy candidate
GoodGame_1.0_x64_pub resolves to a full entry on its own, yet the whole
enumeration batch rejects with the failing key: the PackageRootFolder fetch
sits outside every inner try of the per-key callback, so its exception
propagates to the outermost catch and fails the batch instead of dropping
only the failing candidate. -/
theorem c1_packageRootFolder_throw_fails_batch :
    getGameEntries c1reg true = .error "BadGame_1.0_x64_pub"
    ∧ processKey c1reg "GoodGame_1.0_x64_pub" = .ok (some c1goodEntry) :=
  ⟨rfl, rfl⟩

/-- C8: when the store is installed, a second `allGames` call without an
intervening reload returns the identical memoized result and leaves the
state — in particular the query count — unchanged, the returned value being
exactly the cached one; `reloadGames` issues one fresh store query and the
next `allGames` returns that fresh query result. -/
theorem c8_allGames_memoization (query : Nat → List XboxEntry) (s : StoreState)
    (h : s.isXboxInstalled = true) :
    (allGames query s).1 = (allGames query (allGames query s).2).1
    ∧ (allGames query (allGames query s).2).2 = (allGames query s).2
    ∧ ((allGames query s).2).mCache = some (allGames query s).1
    ∧ (reloadGames query (allGames query s).2).queryCount
        = ((allGames query s).2).queryCount + 1
    ∧ (allGames query (reloadGames query (allGames query s).2)).1
        = query ((allGames query s).2).queryCount := by
  cases hc : s.mCache with
  | none => simp [allGames, reloadGames, h, hc]
  | some cached => simp [allGames, reloadGames, h, hc]

/-- C8 witness: the memoization theorem applied to the concrete initial
state and the constant-empty query stream. -/
theorem c8_allGames_memoization_witness :
    (allGames c8query c8state).1 = (allGames c8query (allGames c8query c8state).2).1
    ∧ (allGames c8query (allGames c8query c8state).2).2 = (allGames c8query c8state).2
    ∧ ((allGames c8query c8state).2).mCache = some (allGames c8query c8state).1
    ∧ (reloadGames c8query (allGames c8query c8state).2).queryCount
        = ((allGames c8query c8state).2).queryCount + 1
    ∧ (allGames c8query (reloadGames c8query (allGames c8query c8state).2)).1
        = c8query ((allGames c8query c8state).2).queryCount :=
  c8_allGames_memoization c8query c8state rfl

/-- C10: for every candidate key whose DisplayName fetch succeeds with a
value starting with the indirection marker, if `resolveRef` returns
undefined (and the PackageRootFolder fetch succeeds), the per-key body
still emits an entry for the candidate, with an undefined name field,
rather than dropping it. -/
theorem c10_unresolved_ref_still_emitted (reg : Registry) (key dn gp : String)
    (h1 : regGetValue reg "HKEY_CLASSES_ROOT" (REPOSITORY_PATH ++ "\\" ++ key) "DisplayName" = some dn)
    (h2 : jsStartsWith dn "@" = true)
    (h3 : resolveRef reg key dn = none)
    (h4 : regGetValue reg "HKEY_CLASSES_ROOT" (REPOSITORY_PATH ++ "\\" ++ key) "PackageRootFolder" = some gp) :
    ∃ e : XboxEntry, processKey reg key = .ok (some e) ∧ e.name = none := by
  refine ⟨{ appid := appidOf key, publisherId := publisherIdOf key,
            executionName := executionNameOf reg key,
            gamePath := (resolveMutableLocation reg gp).getD gp,
            name := none, gameStoreId := STORE_ID }, ?_, rfl⟩
  simp only [processKey, h1, h2, h3, h4, if_true]

/-- C10 witness: the theorem applied to a concrete registry whose single
candidate has an unresolvable indirect display name. -/
theorem c10_unresolved_ref_still_emitted_witness :
    ∃ e : XboxEntry, processKey c10reg "RefGame_1.0_x64_pub" = .ok (some e) ∧ e.name = none :=
  c10_unresolved_ref_still_emitted c10reg "RefGame_1.0_x64_pub" "@appDisplayNameRef"
    "C:\\Games\\Ref" (by decide) (by decide) (by decide) (by decide)

/-- C3 counterexample: the resource cache for package P holds two hives,
both carrying a value named with the reference string; the first hive
yields Name1, yet `resolveRef` returns Name2 from the later hive — the
later-enumerated hive does change the returned name. -/
theorem c3_first_hive_counterexample :
    hiveStep c3reg (winJoin (resourcesCachePath "P") "K") "@ref" none "H1" = some "Name1"
    ∧ resolveRef c3reg "P" "@ref" = some "Name2"
    ∧ ("Name2" : String) ≠ "Name1" := by decide

/-- C4 counterexample: the first child key under the secondary repository
for key G_1_p is MyGame, which contains no exclamation mark; the claim
says `executionName` is then the whole child key name, but the code falls
back to the literal App. -/
theorem c4_no_separator_counterexample :
    getFirstKeyName c4reg "HKEY_CLASSES_ROOT" (winJoin REPOSITORY_PATH2 "G_1_p") = some "MyGame"
    ∧ jsSplit "MyGame" '!' = ["MyGame"]
    ∧ executionNameOf c4reg "G_1_p" = "App"
    ∧ ("App" : String) ≠ "MyGame" := by decide

end XboxStore

namespace XboxStore

/-- Helper for C4: the entry the per-key body emits carries exactly the
derived execution name. -/
theorem processKey_executionName (reg : Registry) (key : String) (e : XboxEntry)
    (he : processKey reg key = .ok (some e)) :
    e.executionName = executionNameOf reg key := by
  unfold processKey at he
  cases hdn : regGetValue reg "HKEY_CLASSES_ROOT" (REPOSITORY_PATH ++ "\\" ++ key) "DisplayName" with
  | none => rw [hdn] at he; simp at he
  | some dn =>
    rw [hdn] at he
    cases hgp : regGetValue reg "HKEY_CLASSES_ROOT" (REPOSITORY_PATH ++ "\\" ++ key) "PackageRootFolder" with
    | none => rw [hgp] at he; simp at he
    | some gp =>
      rw [hgp] at he
      simp only [Except.ok.injEq, Option.some.injEq] at he
      rw [← he]

/-- C4 (amended): for every candidate key, if the first child key under the
secondary repository is found and its name splits on the exclamation mark
into more than one segment, `executionName` is the last segment; if the
child key name contains no exclamation mark, or no child key is found at
all, `executionName` is the literal App. The emitted entry carries exactly
this value. -/
theorem c4_executionName_derivation (reg : Registry) (key : String) :
    (∀ fk, getFirstKeyName reg "HKEY_CLASSES_ROOT" (winJoin REPOSITORY_PATH2 key) = some fk →
      (((jsSplit fk '!').length > 1 →
          executionNameOf reg key = lastSegment (jsSplit fk '!'))
        ∧ ((jsSplit fk '!').length ≤ 1 → executionNameOf reg key = "App")))
    ∧ (getFirstKeyName reg "HKEY_CLASSES_ROOT" (winJoin REPOSITORY_PATH2 key) = none →
        executionNameOf reg key = "App")
    ∧ (∀ e, processKey reg key = .ok (some e) → e.executionName = executionNameOf reg key) := by
  refine ⟨?_, ?_, fun e he => processKey_executionName reg key e he⟩
  · intro fk hfk
    constructor
    · intro hlen
      simp [executionNameOf, hfk, hlen]
    · intro hlen
      have hnot : ¬ ((jsSplit fk '!').length > 1) := by omega
      simp [executionNameOf, hfk, hnot]
  · intro hnone
    simp [executionNameOf, hnone]

/-- C4 witness: the amended theorem applied to the concrete registry whose
first child key MyGame has no exclamation mark, giving the App fallback. -/
theorem c4_executionName_derivation_witness :
    executionNameOf c4reg "G_1_p" = "App" :=
  ((c4_executionName_derivation c4reg "G_1_p").1 "MyGame" (by decide)).2 (by decide)

end XboxStore

namespace XboxStore

/-- Helper for C3: a hive whose standalone outcome is a match yields that
match regardless of the accumulated name. -/
theorem hiveStep_of_match (reg : Registry) (p dn hv v : String)
    (hm : hiveStep reg p dn none hv = some v) (acc : Option String) :
    hiveStep reg p dn acc hv = some v := by
  cases hk : reg.keys "HKEY_CLASSES_ROOT" (winJoin p hv) with
  | none => simp [hiveStep, hk] at hm
  | some k =>
    cases hf : k.values.find? (fun val => val.name = dn) with
    | none => simp [hiveStep, hk, hf] at hm
    | some val =>
      simp only [hiveStep, hk, hf] at hm ⊢
      exact hm

/-- Helper for C3: a hive whose standalone outcome is no match leaves the
accumulated name unchanged. -/
theorem hiveStep_of_no_match (reg : Registry) (p dn hv : String)
    (hm : hiveStep reg p dn none hv = none) (acc : Option String) :
    hiveStep reg p dn acc hv = acc := by
  cases hk : reg.keys "HKEY_CLASSES_ROOT" (winJoin p hv) with
  | none => simp [hiveStep, hk]
  | some k =>
    cases hf : k.values.find? (fun val => val.name = dn) with
    | none => simp [hiveStep, hk, hf]
    | some val => simp [hiveStep, hk, hf] at hm

/-- Helper for C3: folding over hives none of which matches leaves the
accumulated name unchanged. -/
theorem foldl_hiveStep_no_match (reg : Registry) (p dn : String) (post : List String)
    (h : ∀ h0 ∈ post, hiveStep reg p dn none h0 = none) (acc : Option String) :
    post.foldl (hiveStep reg p dn) acc = acc := by
  induction post generalizing acc with
  | nil => rfl
  | cons a t ih =>
    simp only [List.foldl_cons]
    rw [hiveStep_of_no_match reg p dn a (h a (by simp)) acc]
    exact ih (fun x hx => h x (by simp [hx])) acc

/-- C3 (amended): in indirect display-name resolution, the LAST hive in
enumeration order that contains a value named with the original reference
string determines the returned name: a hive match made later in the scan
overwrites the result of any earlier hive, because the hives are visited
with forEach and the name variable is reassigned on every match. -/
theorem c3_last_hive_determines_name (reg : Registry) (packageId displayName fk : String)
    (h1 : getFirstKeyName reg "HKEY_CLASSES_ROOT" (resourcesCachePath packageId) = some fk)
    (pre : List String) (hv : String) (post : List String)
    (h2 : getKeyNames reg "HKEY_CLASSES_ROOT" (winJoin (resourcesCachePath packageId) fk)
        = pre ++ hv :: post)
    (v : String)
    (h3 : hiveStep reg (winJoin (resourcesCachePath packageId) fk) displayName none hv = some v)
    (h4 : ∀ h0 ∈ post,
        hiveStep reg (winJoin (resourcesCachePath packageId) fk) displayName none h0 = none) :
    resolveRef reg packageId displayName = some v := by
  unfold resolveRef
  simp only [h1, h2]
  have hne : (pre ++ hv :: post).isEmpty = false := by cases pre <;> simp
  simp only [hne, Bool.false_eq_true, if_false, List.foldl_append, List.foldl_cons]
  rw [hiveStep_of_match reg _ displayName hv v h3]
  exact foldl_hiveStep_no_match reg _ displayName post h4 (some v)

/-- C3 witness: the amended theorem applied to the concrete two-hive
registry, returning the data of the later hive. -/
theorem c3_last_hive_determines_name_witness :
    resolveRef c3reg "P" "@ref" = some "Name2" :=
  c3_last_hive_determines_name c3reg "P" "@ref" "K" (by decide)
    ["H1"] "H2" [] (by decide) "Name2" (by decide) (by simp)

end XboxStore

namespace XboxStore

/-- Helper for C5: the state-cache loop over children that all open but
none of which carries the MutableLink / MutableLocation pair finishes with
no result. -/
theorem mutableLoop_all_skip (reg : Registry) (pkg : String) (cs : List String)
    (h : ∀ c ∈ cs, ∃ k, reg.keys "HKEY_LOCAL_MACHINE" (winJoin MUTABLE_LOCATION_PATH c) = some k
        ∧ hasMutablePair k = false) :
    mutableLoop reg pkg cs = .ok none := by
  induction cs with
  | nil => rfl
  | cons a t ih =>
    obtain ⟨k, hk, hpair⟩ := h a (by simp)
    simp only [mutableLoop, hk, hpair, Bool.false_eq_true, if_false]
    exact ih (fun c hc => h c (by simp [hc]))

/-- Helper for C5: children preceding the match are skipped when each opens
and either lacks the value pair or links to a different package path. -/
theorem mutableLoop_skip_prefix (reg : Registry) (pkg : String) (pre rest : List String)
    (h : ∀ c0 ∈ pre, ∃ k0, reg.keys "HKEY_LOCAL_MACHINE" (winJoin MUTABLE_LOCATION_PATH c0) = some k0
        ∧ (hasMutablePair k0 = false
           ∨ (hasMutablePair k0 = true
              ∧ ∃ l, regGetValue reg "HKEY_LOCAL_MACHINE" (winJoin MUTABLE_LOCATION_PATH c0) "MutableLink" = some l
                ∧ l ≠ pkg))) :
    mutableLoop reg pkg (pre ++ rest) = mutableLoop reg pkg rest := by
  induction pre with
  | nil => rfl
  | cons a t ih =>
    obtain ⟨k, hk, hcase⟩ := h a (by simp)
    have htail : mutableLoop reg pkg (t ++ rest) = mutableLoop reg pkg rest :=
      ih (fun c hc => h c (by simp [hc]))
    rcases hcase with hpair | ⟨hpair, l, hl, hne⟩
    · simp only [List.cons_append, mutableLoop, hk, hpair, Bool.false_eq_true, if_false]
      exact htail
    · simp only [List.cons_append, mutableLoop, hk, hpair, if_true, hl, hne, if_false]
      exact htail

/-- C5: `resolveMutableLocation` returns undefined when every state-cache
child key opens but none carries both string-typed values MutableLink and
MutableLocation; and when the children split as pre ++ c :: post where
every child in pre either lacks the pair or links elsewhere, and c carries
the pair with MutableLink equal to the probe path, the result is exactly
the MutableLocation value of c — the first match in enumeration order. -/
theorem c5_resolveMutableLocation_spec (reg : Registry) (pkg : String) (rk : RegKey)
    (hroot : reg.keys "HKEY_LOCAL_MACHINE" MUTABLE_LOCATION_PATH = some rk) :
    ((∀ c ∈ rk.subkeys, ∃ k, reg.keys "HKEY_LOCAL_MACHINE" (winJoin MUTABLE_LOCATION_PATH c) = some k
        ∧ hasMutablePair k = false) →
      resolveMutableLocation reg pkg = none)
    ∧ (∀ pre c post, rk.subkeys = pre ++ c :: post →
        (∀ c0 ∈ pre, ∃ k0, reg.keys "HKEY_LOCAL_MACHINE" (winJoin MUTABLE_LOCATION_PATH c0) = some k0
            ∧ (hasMutablePair k0 = false
               ∨ (hasMutablePair k0 = true
                  ∧ ∃ l, regGetValue reg "HKEY_LOCAL_MACHINE" (winJoin MUTABLE_LOCATION_PATH c0) "MutableLink" = some l
                    ∧ l ≠ pkg))) →
        ∀ k, reg.keys "HKEY_LOCAL_MACHINE" (winJoin MUTABLE_LOCATION_PATH c) = some k →
          hasMutablePair k = true →
          regGetValue reg "HKEY_LOCAL_MACHINE" (winJoin MUTABLE_LOCATION_PATH c) "MutableLink" = some pkg →
          ∀ loc, regGetValue reg "HKEY_LOCAL_MACHINE" (winJoin MUTABLE_LOCATION_PATH c) "MutableLocation" = some loc →
            resolveMutableLocation reg pkg = some loc) := by
  constructor
  · intro hall
    simp only [resolveMutableLocation, hroot, mutableLoop_all_skip reg pkg rk.subkeys hall]
  · intro pre c post hsplit hpre k hk hpair hlink loc hloc
    simp only [resolveMutableLocation, hroot, hsplit,
      mutableLoop_skip_prefix reg pkg pre (c :: post) hpre]
    simp only [mutableLoop, hk, hpair, if_true, hlink, hloc, if_pos rfl]

/-- C5 witness: the theorem applied to a registry with a single pair-less
child (undefined result), and to a registry whose second child links the
probe path PKGPATH to LOCPATH. -/
theorem c5_resolveMutableLocation_spec_witness :
    resolveMutableLocation c5regA "PKGPATH" = none
    ∧ resolveMutableLocation c5regB "PKGPATH" = some "LOCPATH" := by
  constructor
  · refine (c5_resolveMutableLocation_spec c5regA "PKGPATH" _ rfl).1 ?_
    intro c hc
    simp only [show (RegKey.subkeys { subkeys := ["C1"], values := [] }) = ["C1"] from rfl,
      List.mem_singleton] at hc
    subst hc
    exact ⟨_, rfl, by decide⟩
  · refine (c5_resolveMutableLocation_spec c5regB "PKGPATH" _ rfl).2 ["C1"] "C2" [] rfl ?_ _ rfl
      (by decide) (by decide) "LOCPATH" (by decide)
    intro c0 hc0
    simp only [List.mem_singleton] at hc0
    subst hc0
    exact ⟨_, rfl, Or.inl (by decide)⟩

end XboxStore

namespace GamingRoot

/-- Helper for C6: object assignment then property read — reading the
assigned key yields the new value, any other key is unaffected. -/
theorem getKey_setKey (m : List (String × String)) (k v k0 : String) :
    getKey (setKey m k v) k0 = if k0 = k then some v else getKey m k0 := by
  induction m with
  | nil =>
    by_cases h : k0 = k
    · simp [setKey, getKey, h]
    · simp [setKey, getKey, h, Ne.symm h]
  | cons p t ih =>
    by_cases hp : p.1 = k
    · by_cases h : k0 = k
      · simp [setKey, getKey, hp, h]
      · have hp0 : ¬ p.1 = k0 := fun he => h (he.symm.trans hp)
        simp [setKey, getKey, hp, h, hp0, Ne.symm h]
    · by_cases h : k0 = p.1
      · have hk0 : ¬ k0 = k := fun he => hp (h.symm.trans he)
        simp [setKey, getKey, hp, hk0, h.symm]
      · simp [setKey, getKey, hp, h, Ne.symm h, ih]

/-- Helper for C6: replaying writes distributes over list append. -/
theorem applyWrites_append (m : List (String × String)) (ws1 ws2 : List (String × String)) :
    applyWrites m (ws1 ++ ws2) = applyWrites (applyWrites m ws1) ws2 := by
  simp [applyWrites, List.foldl_append]

/-- Helper for C6: folding the per-manifest step over a manifest list is
replaying the writes those manifests produce. -/
theorem foldl_processManifest (env : ManifestEnv) (ms : List String) (m : List (String × String)) :
    ms.foldl (processManifest env) m = applyWrites m (ms.filterMap (manifestWrite env)) := by
  induction ms generalizing m with
  | nil => rfl
  | cons a t ih =>
    simp only [List.foldl_cons, List.filterMap_cons]
    cases hw : manifestWrite env a with
    | none => simp [processManifest, hw, ih]
    | some w => simp [processManifest, hw, ih, applyWrites]

/-- Helper for C6: the whole discovery fold is the replay of all volume
writes in enumeration order. -/
theorem foldl_volumes (env : ManifestEnv) (roots : List String) (m : List (String × String)) :
    roots.foldl (fun m root => (env.manifests root).foldl (processManifest env) m) m
      = applyWrites m
          ((roots.map (fun root => (env.manifests root).filterMap (manifestWrite env))).flatten) := by
  induction roots generalizing m with
  | nil => rfl
  | cons a t ih =>
    simp only [List.foldl_cons, List.map_cons, List.flatten_cons]
    rw [foldl_processManifest, applyWrites_append, ih]

/-- Helper for C6: a replayed map reads as the last write for the key, or
falls back to the original map. -/
theorem getKey_applyWrites (ws : List (String × String)) (m : List (String × String)) (k : String) :
    getKey (applyWrites m ws) k =
      match (ws.filter (fun w => w.1 == k)).getLast? with
      | some w => some w.2
      | none => getKey m k := by
  induction ws using List.reverseRecOn with
  | nil => rfl
  | append_singleton t w ih =>
    rw [applyWrites_append]
    by_cases hw : w.1 = k
    · simp [applyWrites, getKey_setKey, List.filter_append, hw, List.getLast?_concat]
    · have hbeq : (w.1 == k) = false := by simp [hw]
      simp only [applyWrites, List.foldl_cons, List.foldl_nil, getKey_setKey,
        List.filter_append, List.filter_cons, List.filter_nil, hbeq, Bool.false_eq_true,
        if_false, List.append_nil]
      rw [if_neg (fun he : k = w.1 => hw he.symm)]
      exact ih

/-- C6 (amended): in `findInstalledGames`, for every title identity, the
resulting map holds the install path of the LAST write in enumeration
order — a manifest for an identity found on a later-enumerated volume
overwrites the path recorded from an earlier volume (deterministic
last-write-wins, by unconditional object assignment). -/
theorem c6_last_write_wins (env : ManifestEnv) (k : String) :
    getKey (findInstalledGames env) k =
      ((volumeWrites env).filter (fun w => w.1 == k)).getLast?.map (fun w => w.2) := by
  unfold findInstalledGames volumeWrites
  rw [foldl_volumes env env.gamingRootPaths []]
  rw [getKey_applyWrites]
  cases ((env.gamingRootPaths.map
      (fun root => (env.manifests root).filterMap (manifestWrite env))).flatten.filter
        (fun w => w.1 == k)).getLast? with
  | none => rfl
  | some w => rfl

end GamingRoot
